import Mathlib

/-!
Verification development for the fs_sim block filesystem.

The definitions below are a shallow embedding of the C++ sources:
`src/fs/block_group_manager.cpp`, `src/fs/filesystem.cpp`,
`include/fs/disk_datastructures.hpp`.  Machine integers (`int`, `size_t`,
`uint8_t`) are modelled as `Nat`, with explicit `% 2 ^ 64` where the
source can wrap a `size_t` and `% 256` where it truncates to `uint8_t`.
Fallible code (C++ `throw`) is modelled with `Except`.
-/

set_option autoImplicit false

namespace FsSim

/-- BLOCK_SIZE from disk.hpp: fixed 4096-byte blocks. -/
def BLOCK_SIZE : Nat := 4096

/-- sizeof(DirEntry) with `#pragma pack(1)`: 8 (inode_id) + 1 (name_len) + 255 (name). -/
def sizeof_DirEntry : Nat := 264

/-- sizeof(Inode) with `#pragma pack(1)`: 8 (id) + 4 (file_type enum) + 8 (file_size)
    + 12 * 8 (direct_blocks). -/
def sizeof_Inode : Nat := 116

/-- Entries per directory block, `4096 / sizeof(DirEntry)` as computed in filesystem.cpp. -/
def max_entries : Nat := BLOCK_SIZE / sizeof_DirEntry

/-- A bitmap block viewed as its byte array: byte index to byte value (0..255),
    exactly how `BlockGroupManager` indexes `uint8_t* bitmap`. -/
def Bitmap : Type := Nat → Nat

/-- `BlockGroupManager::get_bit`: `(bitmap[index / 8] & (1 << (index % 8))) != 0`. -/
def get_bit (bm : Bitmap) (index : Nat) : Bool :=
  (bm (index / 8)) &&& (1 <<< (index % 8)) != 0

/-- `BlockGroupManager::set_bit`: `bitmap[index / 8] |= (1 << (index % 8))`. -/
def set_bit (bm : Bitmap) (index : Nat) : Bitmap :=
  fun j => if j = index / 8 then bm (index / 8) ||| (1 <<< (index % 8)) else bm j

/-- `BlockGroupManager::clear_bit`: `bitmap[index / 8] &= ~(1 << (index % 8))`;
    the complement of the 8-bit mask is `255 ^^^ mask`. -/
def clear_bit (bm : Bitmap) (index : Nat) : Bitmap :=
  fun j => if j = index / 8 then bm (index / 8) &&& (255 ^^^ (1 <<< (index % 8))) else bm j

/-- Inner loop of `find_first_free_bit`: scan bits `bit, bit+1, ...` of byte
    `byteIdx` (value `b`), returning `i * 8 + bit` for the first clear bit whose
    global index is `< max_bits`; `fuel` counts the remaining loop iterations
    (the C++ loop runs `bit` from 0 to 7). -/
def find_bit_go (b byteIdx max_bits : Nat) : Nat → Nat → Option Nat
  | _, 0 => none
  | bit, fuel + 1 =>
    if (b >>> bit) &&& 1 = 0 then
      if byteIdx * 8 + bit < max_bits then some (byteIdx * 8 + bit)
      else find_bit_go b byteIdx max_bits (bit + 1) fuel
    else find_bit_go b byteIdx max_bits (bit + 1) fuel

/-- Outer loop of `find_first_free_bit`: scan bytes `i, i+1, ...`; a byte equal to
    `0xFF` is skipped; `fuel` counts the remaining iterations (the C++ loop runs
    `i` from 0 to `max_bits / 8 - 1`). -/
def find_byte_go (bm : Bitmap) (max_bits : Nat) : Nat → Nat → Option Nat
  | _, 0 => none
  | i, fuel + 1 =>
    if bm i ≠ 255 then
      match find_bit_go (bm i) i max_bits 0 8 with
      | some found => some found
      | none => find_byte_go bm max_bits (i + 1) fuel
    else find_byte_go bm max_bits (i + 1) fuel

/-- `BlockGroupManager::find_first_free_bit` (block_group_manager.cpp:129-142):
    returns the lowest clear bit index `< max_bits`, scanning whole bytes
    (`max_bytes = max_bits / 8`); `none` models the C++ return of -1. -/
def find_first_free_bit (bm : Bitmap) (max_bits : Nat) : Option Nat :=
  find_byte_go bm max_bits 0 (max_bits / 8)

/-- `BlockGroupManager::allocate_inode` (block_group_manager.cpp:48-69) at the
    bitmap level: find the first free bit over `inodes_per_group` bits, set it,
    and return the global id `group_id * inodes_per_group + local_index`
    (the zeroing of the inode record is handled by the state-level wrapper). -/
def allocate_inode (inodes_per_group group_id : Nat) (bm : Bitmap) :
    Option Nat × Bitmap :=
  match find_first_free_bit bm inodes_per_group with
  | none => (none, bm)
  | some local_index =>
    (some (group_id * inodes_per_group + local_index), set_bit bm local_index)

/-- `BlockGroupManager::allocate_block` (block_group_manager.cpp:85-107) at the
    bitmap level.  When the scan finds local bit 0 the source sets that bit and
    calls itself again; on the retried scan bit 0 is set, so the recursive call
    cannot find 0 again — the recursion is therefore unrolled once here, and the
    `some local` arm of the inner match is reached only with `local ≥ 1`
    (proved in `find_after_set_zero_ne_zero`). -/
def allocate_block (blocks_per_group group_id : Nat) (bm : Bitmap) :
    Option Nat × Bitmap :=
  match find_first_free_bit bm blocks_per_group with
  | none => (none, bm)
  | some 0 =>
    let bm0 := set_bit bm 0
    (match find_first_free_bit bm0 blocks_per_group with
     | none => (none, bm0)
     | some loc => (some (group_id * blocks_per_group + loc), set_bit bm0 loc))
  | some loc => (some (group_id * blocks_per_group + loc), set_bit bm loc)

/-- Modelled from the spec, not the source: the first data-usable local block of
    group 0, `3 + ceil(inodes_per_group * sizeof(Inode) / BLOCK_SIZE)` (§4.2 of the
    spec).  Used only to compare the source allocator against the specified
    metadata reservation. -/
def spec_first_data_block (inodes_per_group : Nat) : Nat :=
  3 + (inodes_per_group * sizeof_Inode + (BLOCK_SIZE - 1)) / BLOCK_SIZE

/-- The all-zero bitmap: the state of both bitmaps of every group right after
    `FileSystem::format` wipes every block of the disk. -/
def zero_bitmap : Bitmap := fun _ => 0

theorem find_bit_go_spec (b byteIdx max_bits : Nat) :
    ∀ fuel bit k, bit + fuel ≤ 8 →
      find_bit_go b byteIdx max_bits bit fuel = some k →
      ∃ t, t < 8 ∧ k = byteIdx * 8 + t ∧ (b >>> t) &&& 1 = 0 ∧ k < max_bits := by
  intro fuel
  induction fuel with
  | zero => intro bit k _ h; simp [find_bit_go] at h
  | succ n ih =>
    intro bit k hle h
    rw [find_bit_go] at h
    by_cases hclear : (b >>> bit) &&& 1 = 0
    · rw [if_pos hclear] at h
      by_cases hbound : byteIdx * 8 + bit < max_bits
      · rw [if_pos hbound] at h
        injection h with h
        exact ⟨bit, by omega, h.symm, hclear, by omega⟩
      · rw [if_neg hbound] at h
        exact ih (bit + 1) k (by omega) h
    · rw [if_neg hclear] at h
      exact ih (bit + 1) k (by omega) h

theorem shift_and_one_to_mask (b t : Nat) (h : (b >>> t) &&& 1 = 0) :
    b &&& (1 <<< t) = 0 := by
  have htb : Nat.testBit b t = false := by
    rw [Nat.testBit_to_div_mod]
    rw [Nat.and_one_is_mod, Nat.shiftRight_eq_div_pow] at h
    simp [h]
  rw [Nat.shiftLeft_eq, one_mul, Nat.and_two_pow, htb]
  simp

theorem find_byte_go_spec (bm : Bitmap) (max_bits : Nat) :
    ∀ fuel i k, find_byte_go bm max_bits i fuel = some k →
      get_bit bm k = false ∧ k < max_bits := by
  intro fuel
  induction fuel with
  | zero => intro i k h; simp [find_byte_go] at h
  | succ n ih =>
    intro i k h
    rw [find_byte_go] at h
    by_cases hbyte : bm i ≠ 255
    · rw [if_pos hbyte] at h
      cases hfind : find_bit_go (bm i) i max_bits 0 8 with
      | none =>
        rw [hfind] at h
        exact ih (i + 1) k h
      | some found =>
        rw [hfind] at h
        injection h with h
        subst h
        obtain ⟨t, ht8, hk, hclear, hlt⟩ :=
          find_bit_go_spec (bm i) i max_bits 8 0 found (by omega) hfind
        have hdiv : found / 8 = i := by omega
        have hmod : found % 8 = t := by omega
        refine ⟨?_, hlt⟩
        simp only [get_bit, hdiv, hmod]
        simp [shift_and_one_to_mask (bm i) t hclear]
    · rw [if_neg hbyte] at h
      exact ih (i + 1) k h

theorem find_first_free_bit_spec (bm : Bitmap) (max_bits k : Nat)
    (h : find_first_free_bit bm max_bits = some k) :
    get_bit bm k = false ∧ k < max_bits :=
  find_byte_go_spec bm max_bits (max_bits / 8) 0 k h

theorem or_one_and_one (x : Nat) : (x ||| 1) &&& 1 = 1 := by
  have h1 : Nat.testBit (x ||| 1) 0 = true := by
    rw [Nat.testBit_lor]
    simp [Nat.testBit_to_div_mod]
  rw [Nat.testBit_to_div_mod] at h1
  simp only [pow_zero, Nat.div_one, decide_eq_true_eq] at h1
  rw [Nat.and_one_is_mod, h1]

theorem get_bit_set_zero (bm : Bitmap) : get_bit (set_bit bm 0) 0 = true := by
  have h0 : (1 : Nat) <<< 0 = 1 := rfl
  simp [get_bit, set_bit, h0, or_one_and_one]

/-- After reserving local bit 0, the rescanned free bit can never be 0 again:
    this is why the recursive call in `allocate_block` terminates and why its
    unrolled form above is faithful. -/
theorem find_after_set_zero_ne_zero (bm : Bitmap) (max_bits : Nat) :
    find_first_free_bit (set_bit bm 0) max_bits ≠ some 0 := by
  intro h
  have hspec := find_first_free_bit_spec (set_bit bm 0) max_bits 0 h
  rw [get_bit_set_zero] at hspec
  exact absurd hspec.1 (by simp)

/-- FS_FILE_TYPES from disk_datastructures.hpp. -/
inductive FS_FILE_TYPES where
  | FS_FREE
  | FS_FILE
  | FS_DIRECTORY
  deriving DecidableEq, Repr

/-- Inode from disk_datastructures.hpp (packed): global id, type, size in bytes,
    and the 12 direct block pointers (0 = unused). -/
structure Inode where
  id : Nat
  file_type : FS_FILE_TYPES
  file_size : Nat
  direct_blocks : List Nat
  deriving DecidableEq, Repr

/-- DirEntry from disk_datastructures.hpp (packed, 264 bytes): inode id (0 = empty
    slot), name length byte, and the fixed 255-byte name buffer. -/
structure DirEntry where
  inode_id : Nat
  name_len : Nat
  name : List Nat
  deriving DecidableEq, Repr

/-- SuperBlock as used by filesystem.cpp.  The first five fields are the struct
    in disk_datastructures.hpp.  `home_dir_inode` is modelled from the spec: it
    is read by `traverse_path_till_parent` and `list_dir` in filesystem.cpp but
    missing from the struct definition shipped under src (the field is declared
    only through its callers); per the spec it holds the global inode id of the
    root directory and starts at 0 provisionally. -/
structure SuperBlock where
  magic_number : Nat
  total_inodes : Nat
  total_blocks : Nat
  inodes_per_group : Nat
  blocks_per_group : Nat
  home_dir_inode : Nat
  deriving DecidableEq, Repr

/-- Error taxonomy of the core: one constructor per distinct `throw` reason in
    filesystem.cpp / block_group_manager.cpp, plus `PermissionDenied` from the
    spec so that claims about permission failures are statable. -/
inductive Err where
  | InvalidPath
  | PathNotFound
  | NotADirectory
  | AlreadyExists
  | NoSpace
  | DiskFull
  | DirectoryFull
  | FileNotFound
  | PermissionDenied
  | OutOfRange
  | InvalidImage
  deriving DecidableEq, Repr

/-- A path component / filename: its raw bytes (no NUL terminator). -/
abbrev Name : Type := List Nat

/-- `strncmp(a, b.c_str(), n) == 0` where `a` is the stored 255-byte name buffer
    and `b` the query: compare byte by byte, stopping at the first difference,
    at a NUL on both sides, or after `n` bytes; `headD 0` models both the zero
    padding of the stored buffer and the query's NUL terminator. -/
def cstr_eq : List Nat → List Nat → Nat → Bool
  | _, _, 0 => true
  | a, b, n + 1 =>
    let ca := a.headD 0
    let cb := b.headD 0
    if ca ≠ cb then false
    else if ca = 0 then true
    else cstr_eq a.tail b.tail n

/-- An empty directory slot: `inode_id = 0`, zeroed name. -/
def empty_dirent : DirEntry := ⟨0, 0, List.replicate 255 0⟩

/-- A directory data block always holds `max_entries = 15` entries on disk; a
    shorter stored list stands for a block whose remaining bytes are zero, i.e.
    trailing empty slots. -/
def pad15 (es : List DirEntry) : List DirEntry :=
  (es ++ List.replicate max_entries empty_dirent).take max_entries

/-- Effect of `memset(name, 0, 255)` followed by `strncpy(name, filename.c_str(), 254)`
    on the name buffer: the bytes of the name up to the first NUL, capped at 254,
    then zeros up to 255 bytes. -/
def strncpy_buf (s : Name) : List Nat :=
  let copied := (s.takeWhile (fun c => c ≠ 0)).take 254
  copied ++ List.replicate (255 - copied.length) 0

/-- The mounted filesystem state seen by the core: the in-memory superblock, the
    number of constructed group managers, the inode table view (global id to
    record), the directory-block and file-data views of the data region, and the
    two bitmaps of every group. -/
structure FsState where
  sb : SuperBlock
  managers : Nat
  inodes : Nat → Inode
  dirBlocks : Nat → List DirEntry
  dataBlocks : Nat → Nat → Nat
  inodeBitmaps : Nat → Bitmap
  blockBitmaps : Nat → Bitmap

/-- Entry scan of one directory block in `find_inode_in_dir` (filesystem.cpp:117-123):
    the first entry with `inode_id != 0` whose name matches under `strncmp(..., 255)`
    wins; 0 signals that no entry of this block matched. -/
def scan_entries (name : Name) : List DirEntry → Nat
  | [] => 0
  | e :: rest =>
    if e.inode_id ≠ 0 ∧ cstr_eq e.name name 255 = true then e.inode_id
    else scan_entries name rest

/-- Block loop of `find_inode_in_dir` (filesystem.cpp:102-124): walk the direct
    blocks in order, stop at the first 0 pointer, return the first match. -/
def find_go (st : FsState) (name : Name) : List Nat → Nat
  | [] => 0
  | bid :: rest =>
    if bid = 0 then 0
    else
      let r := scan_entries name (pad15 (st.dirBlocks bid))
      if r ≠ 0 then r else find_go st name rest

/-- `FileSystem::find_inode_in_dir` (filesystem.cpp:100-127): returns the inode id
    bound to `name` in the directory, or 0 for "not found". -/
def find_inode_in_dir (st : FsState) (parent : Inode) (name : Name) : Nat :=
  find_go st name (parent.direct_blocks.take 12)

/-- `FileSystem::get_global_inode_ptr` (filesystem.cpp:130-142): route a global
    inode id to its group; throws if the group index is past the manager vector.
    (The group manager's own range check `start_id <= id < end_id` is implied by
    `group_index = id / inodes_per_group` and is omitted.) -/
def get_global_inode_ptr (st : FsState) (global_id : Nat) : Except Err Inode :=
  if st.sb.inodes_per_group = 0 ∨ global_id / st.sb.inodes_per_group ≥ st.managers then
    .error .OutOfRange
  else .ok (st.inodes global_id)

/-- Loop body of `traverse_path_till_parent` (filesystem.cpp:150-170), iterating
    over all components but the last. -/
def traverse_go (st : FsState) : Nat → List Name → Except Err Nat
  | current, [] => .ok current
  | current, c :: rest =>
    match get_global_inode_ptr st current with
    | .error e => .error e
    | .ok ino =>
      if ino.file_type ≠ .FS_DIRECTORY then .error .NotADirectory
      else
        let next := find_inode_in_dir st ino c
        if next = 0 then .error .PathNotFound
        else traverse_go st next rest

/-- `FileSystem::traverse_path_till_parent` (filesystem.cpp:145-173): resolve the
    parent directory of the last path component, starting from `home_dir_inode`. -/
def traverse_path_till_parent (st : FsState) (toks : List Name) : Except Err Nat :=
  if toks.length ≤ 1 then .ok st.sb.home_dir_inode
  else traverse_go st st.sb.home_dir_inode toks.dropLast

/-- Replace the record of one global inode id, as a mutation through the
    `Inode*` returned by the group manager. -/
def set_inode (st : FsState) (gid : Nat) (ino : Inode) : FsState :=
  { st with inodes := fun x => if x = gid then ino else st.inodes x }

/-- `allocate_inode` of the group manager of group `g` acting on the state:
    set the bitmap bit, `memset` the inode record to zero (type `FS_FREE`,
    all pointers 0) and store the global id in it. -/
def allocate_inode_in_group (st : FsState) (g : Nat) : Option Nat × FsState :=
  match allocate_inode st.sb.inodes_per_group g (st.inodeBitmaps g) with
  | (none, _) => (none, st)
  | (some gid, bm) =>
    (some gid,
     { st with
       inodeBitmaps := fun x => if x = g then bm else st.inodeBitmaps x
       inodes := fun x =>
         if x = gid then ⟨gid, .FS_FREE, 0, List.replicate 12 0⟩ else st.inodes x })

/-- `allocate_block` of the group manager of group `g` acting on the state: the
    reservation of local bit 0 persists even when the retried scan fails, and a
    successful allocation zeroes the target block (both data views). -/
def allocate_block_in_group (st : FsState) (g : Nat) : Option Nat × FsState :=
  match allocate_block st.sb.blocks_per_group g (st.blockBitmaps g) with
  | (none, bm) =>
    (none, { st with blockBitmaps := fun x => if x = g then bm else st.blockBitmaps x })
  | (some gid, bm) =>
    (some gid,
     { st with
       blockBitmaps := fun x => if x = g then bm else st.blockBitmaps x
       dirBlocks := fun x => if x = gid then [] else st.dirBlocks x
       dataBlocks := fun x => if x = gid then (fun _ => 0) else st.dataBlocks x })

/-- `BlockGroupManager::free_block`: clear bit `global_id % blocks_per_group` in
    the data bitmap of the owning group `global_id / blocks_per_group` (the
    group routing done by the callers in filesystem.cpp). -/
def free_block_in_state (st : FsState) (global_block_id : Nat) : FsState :=
  let g := global_block_id / st.sb.blocks_per_group
  { st with
    blockBitmaps := fun x =>
      if x = g then clear_bit (st.blockBitmaps g) (global_block_id % st.sb.blocks_per_group)
      else st.blockBitmaps x }

/-- `BlockGroupManager::free_inode`: clear bit `global_id % inodes_per_group` in
    the inode bitmap of group `global_id / inodes_per_group`. -/
def free_inode_in_state (st : FsState) (global_inode_id : Nat) : FsState :=
  let g := global_inode_id / st.sb.inodes_per_group
  { st with
    inodeBitmaps := fun x =>
      if x = g then clear_bit (st.inodeBitmaps g) (global_inode_id % st.sb.inodes_per_group)
      else st.inodeBitmaps x }

/-- Block-freeing loop of `release_file_resources` (filesystem.cpp:342-354):
    free every non-zero direct block and null the pointer. -/
def release_blocks_go (st : FsState) (inode_id : Nat) : List Nat → FsState
  | [] => st
  | i :: rest =>
    let ino := st.inodes inode_id
    let bid := ino.direct_blocks.getD i 0
    if bid ≠ 0 then
      let st1 := free_block_in_state st bid
      let st2 := set_inode st1 inode_id { ino with direct_blocks := ino.direct_blocks.set i 0 }
      release_blocks_go st2 inode_id rest
    else release_blocks_go st inode_id rest

/-- `FileSystem::release_file_resources` (filesystem.cpp:337-359): free all data
    blocks of the inode, then free the inode itself.  No permission check. -/
def release_file_resources (st : FsState) (inode_id : Nat) : Except Err Unit × FsState :=
  match get_global_inode_ptr st inode_id with
  | .error e => (.error e, st)
  | .ok _ =>
    let st1 := release_blocks_go st inode_id (List.range 12)
    (.ok (), free_inode_in_state st1 inode_id)

/-- Index of the first entry matching `name` (non-empty slot, `strncmp` equal),
    i.e. the `(i, j)` hit of the scan loops in `delete_file` / `delete_dir`. -/
def find_entry_idx (name : Name) : List DirEntry → Option Nat
  | [] => none
  | e :: rest =>
    if e.inode_id ≠ 0 ∧ cstr_eq e.name name 255 = true then some 0
    else (find_entry_idx name rest).map (fun j => j + 1)

/-- Scan-and-unlink loop of `FileSystem::delete_file` (filesystem.cpp:299-330):
    find the entry, zero it (`memset` of the whole `DirEntry`), decrement the
    parent size (`size_t` arithmetic), then release the inode's resources.
    There is no permission check anywhere on this path. -/
def delete_entry_scan (st : FsState) (parent_id : Nat) (filename : Name) :
    List Nat → Except Err Unit × FsState
  | [] => (.error .FileNotFound, st)
  | i :: rest =>
    let parent := st.inodes parent_id
    let bid := parent.direct_blocks.getD i 0
    if bid = 0 then (.error .FileNotFound, st)
    else
      match find_entry_idx filename (pad15 (st.dirBlocks bid)) with
      | some j =>
        let entries := pad15 (st.dirBlocks bid)
        let inode_to_delete := (entries.getD j empty_dirent).inode_id
        let st1 := { st with
          dirBlocks := fun x => if x = bid then entries.set j empty_dirent else st.dirBlocks x }
        let parent1 := st1.inodes parent_id
        let st2 := set_inode st1 parent_id
          { parent1 with file_size := (parent1.file_size + 2 ^ 64 - sizeof_DirEntry) % 2 ^ 64 }
        release_file_resources st2 inode_to_delete
      | none => delete_entry_scan st parent_id filename rest

/-- `FileSystem::delete_file` (filesystem.cpp:287-335).  `back()` on an empty
    token vector is undefined behaviour in the source and is modelled as an
    error; every other branch follows the code. -/
def delete_file (st : FsState) (toks : List Name) : Except Err Unit × FsState :=
  match toks with
  | [] => (.error .InvalidPath, st)
  | _ :: _ =>
    let filename := toks.getLastD []
    match traverse_path_till_parent st toks with
    | .error e => (.error e, st)
    | .ok parent_id =>
      match get_global_inode_ptr st parent_id with
      | .error e => (.error e, st)
      | .ok _ => delete_entry_scan st parent_id filename (List.range 12)

/-- Index of the first empty slot (`inode_id == 0`) in a directory block, the
    inner scan of `add_entry_to_dir` (filesystem.cpp:205-227). -/
def free_slot_idx : List DirEntry → Option Nat
  | [] => none
  | e :: rest =>
    if e.inode_id = 0 then some 0 else (free_slot_idx rest).map (fun j => j + 1)

/-- Write one directory entry into the first empty slot of block `bid` and bump
    the parent's size, as done inside the `j` loop of `add_entry_to_dir`: link
    the id, zero the name buffer, `strncpy` at most 254 bytes, store
    `(uint8_t)filename.size()` into `name_len`, add `sizeof(DirEntry)` to
    `parent.file_size`. -/
def fill_slot (st : FsState) (parent_id bid new_id : Nat) (filename : Name) :
    Option FsState :=
  match free_slot_idx (pad15 (st.dirBlocks bid)) with
  | none => none
  | some j =>
    let entries := pad15 (st.dirBlocks bid)
    let newe : DirEntry := ⟨new_id, filename.length % 256, strncpy_buf filename⟩
    let st1 := { st with
      dirBlocks := fun x => if x = bid then entries.set j newe else st.dirBlocks x }
    let parent := st1.inodes parent_id
    some (set_inode st1 parent_id
      { parent with file_size := (parent.file_size + sizeof_DirEntry) % 2 ^ 64 })

/-- Outer loop of `FileSystem::add_entry_to_dir` (filesystem.cpp:182-228): grow
    the directory with a freshly allocated (zeroed) block when a pointer is 0,
    then fill the first free slot of the current block.  A fresh block always
    has slot 0 free, so the `none` arm after growth mirrors the loop falling
    through (it is unreachable there). -/
def add_entry_go (st : FsState) (parent_id new_id : Nat) (filename : Name) :
    List Nat → Except Err Unit × FsState
  | [] => (.error .DirectoryFull, st)
  | i :: rest =>
    let parent := st.inodes parent_id
    let curr := parent.direct_blocks.getD i 0
    if curr = 0 then
      let g := parent.id / st.sb.inodes_per_group
      match allocate_block_in_group st g with
      | (none, st1) => (.error .DiskFull, st1)
      | (some nb, st1) =>
        let p1 := st1.inodes parent_id
        let st2 := set_inode st1 parent_id { p1 with direct_blocks := p1.direct_blocks.set i nb }
        match fill_slot st2 parent_id nb new_id filename with
        | some st3 => (.ok (), st3)
        | none => add_entry_go st2 parent_id new_id filename rest
    else
      match fill_slot st parent_id curr new_id filename with
      | some st1 => (.ok (), st1)
      | none => add_entry_go st parent_id new_id filename rest

/-- `FileSystem::add_entry_to_dir` (filesystem.cpp:178-231). -/
def add_entry_to_dir (st : FsState) (parent_id new_id : Nat) (filename : Name) :
    Except Err Unit × FsState :=
  add_entry_go st parent_id new_id filename (List.range 12)

/-- Group loop of step 3 of `create_fs_entry` (filesystem.cpp:477-480): try
    `allocate_inode` on every group manager in order. -/
def try_allocate_inode (st : FsState) : List Nat → Option Nat × FsState
  | [] => (none, st)
  | g :: rest =>
    match allocate_inode_in_group st g with
    | (some gid, st1) => (some gid, st1)
    | (none, st1) => try_allocate_inode st1 rest

/-- `FileSystem::create_fs_entry` (filesystem.cpp:457-497), the shared worker of
    `create_file` and `create_dir`. -/
def create_fs_entry (st : FsState) (toks : List Name) (t : FS_FILE_TYPES) :
    Except Err Unit × FsState :=
  match toks with
  | [] => (.error .InvalidPath, st)
  | _ :: _ =>
    let filename := toks.getLastD []
    match traverse_path_till_parent st toks with
    | .error e => (.error e, st)
    | .ok parent_id =>
      match get_global_inode_ptr st parent_id with
      | .error e => (.error e, st)
      | .ok parent =>
        if find_inode_in_dir st parent filename ≠ 0 then (.error .AlreadyExists, st)
        else
          match try_allocate_inode st (List.range st.managers) with
          | (none, st1) => (.error .DiskFull, st1)
          | (some new_id, st1) =>
            match get_global_inode_ptr st1 new_id with
            | .error e => (.error e, st1)
            | .ok _ =>
              let st2 := set_inode st1 new_id ⟨new_id, t, 0, List.replicate 12 0⟩
              add_entry_to_dir st2 parent_id new_id filename

/-- Path-resolution prefix of `FileSystem::read_file` (filesystem.cpp:253-268):
    parent lookup, name lookup, inode fetch.  `back()` on an empty token vector
    is undefined behaviour in the source and is modelled as an error. -/
def resolve_file (st : FsState) (toks : List Name) : Except Err Inode :=
  match toks with
  | [] => .error .InvalidPath
  | _ :: _ =>
    let filename := toks.getLastD []
    match traverse_path_till_parent st toks with
    | .error e => .error e
    | .ok parent_id =>
      match get_global_inode_ptr st parent_id with
      | .error e => .error e
      | .ok parent =>
        let file_id := find_inode_in_dir st parent filename
        if file_id = 0 then .error .FileNotFound
        else get_global_inode_ptr st file_id

/-- Copy loop of `FileSystem::read_direct_block_to_buffer` (filesystem.cpp:233-250):
    copy whole blocks into the buffer at offsets `i * BLOCK_SIZE`, stopping at the
    first 0 pointer; `fuel` counts the remaining iterations of the 12-step loop. -/
def rdb_go (st : FsState) (dbs : List Nat) : (Nat → Nat) → Nat → Nat → (Nat → Nat)
  | buf, _, 0 => buf
  | buf, i, fuel + 1 =>
    let bid := dbs.getD i 0
    if bid = 0 then buf
    else
      rdb_go st dbs
        (fun a =>
          if i * BLOCK_SIZE ≤ a ∧ a < i * BLOCK_SIZE + BLOCK_SIZE then
            st.dataBlocks bid (a - i * BLOCK_SIZE)
          else buf a)
        (i + 1) fuel

/-- `FileSystem::read_direct_block_to_buffer` applied to a zero-initialized
    destination buffer. -/
def read_direct_block_to_buffer (st : FsState) (file : Inode) : Nat → Nat :=
  rdb_go st file.direct_blocks (fun _ => 0) 0 12

/-- `FileSystem::read_file` (filesystem.cpp:253-284): resolve the file, allocate
    a `12 * BLOCK_SIZE` buffer, copy the direct blocks in, and return the whole
    buffer.  The resize to `file_size` is commented out in the source, so the
    returned vector always has `12 * BLOCK_SIZE` elements. -/
def read_file (st : FsState) (toks : List Name) : Except Err (List Nat) :=
  (resolve_file st toks).map fun file_inode =>
    List.ofFn fun a : Fin (12 * BLOCK_SIZE) =>
      read_direct_block_to_buffer st file_inode a.val

/-- The in-memory superblock built by step 2 of `FileSystem::format`
    (filesystem.cpp:35-39): geometry is unconditionally 4096 per group, and
    `total_inodes = (total_blocks / blocks_per_group) * inodes_per_group`;
    `home_dir_inode` keeps its provisional value 0 (format never assigns it). -/
def format_sb (total_blocks : Nat) : SuperBlock :=
  { magic_number := 0xF5513001
    total_inodes := total_blocks / 4096 * 4096
    total_blocks := total_blocks
    inodes_per_group := 4096
    blocks_per_group := 4096
    home_dir_inode := 0 }

/-- `FileSystem::mount` (filesystem.cpp:68-95): check the magic, then build one
    group manager per group with `total_groups = total_blocks / blocks_per_group`
    (integer division).  The result lists the constructed group indices. -/
def mount (sb_on_disk : SuperBlock) : Except Err (List Nat) :=
  if sb_on_disk.magic_number ≠ 0xF5513001 then .error .InvalidImage
  else .ok (List.range (sb_on_disk.total_blocks / sb_on_disk.blocks_per_group))

/-- The externally visible steps of `FileSystem::format` relevant to the
    superblock lifecycle: writes of the superblock to block 0, and the root
    allocation. -/
inductive FormatEvent where
  | write_sb (sb : SuperBlock)
  | alloc_root (id : Nat)
  deriving DecidableEq, Repr

/-- Outcome of `FileSystem::format`: the ordered superblock/root events and the
    root inode produced (id plus initialized record), or the error raised. -/
structure FormatResult where
  events : List FormatEvent
  outcome : Except Err (Nat × Inode)

/-- `FileSystem::format` (filesystem.cpp:23-63): wipe the disk (so both bitmaps
    of every group are all-zero), build `format_sb`, write it to block 0, mount
    (`total_blocks / 4096` managers), allocate the root inode from group 0, and
    initialize it as a directory.  No further superblock write occurs.  When the
    manager vector is empty, `block_group_managers[0]` is an out-of-bounds
    access in the source, modelled as `OutOfRange`. -/
def format (total_blocks : Nat) : FormatResult :=
  let sb := format_sb total_blocks
  let groups := total_blocks / sb.blocks_per_group
  if groups = 0 then
    { events := [.write_sb sb], outcome := .error .OutOfRange }
  else
    match allocate_inode sb.inodes_per_group 0 zero_bitmap with
    | (none, _) => { events := [.write_sb sb], outcome := .error .NoSpace }
    | (some root_id, _) =>
      { events := [.write_sb sb, .alloc_root root_id]
        outcome := .ok (root_id, ⟨root_id, .FS_DIRECTORY, 0, List.replicate 12 0⟩) }

/-- C1.  Refuted: `allocate_inode` scans from bit 0 in every group, group 0
    included — `find_first_free_bit` has no start offset — so the very first
    allocation on a freshly formatted disk (all-zero inode bitmap, the one the
    root allocation of `format` performs) returns global inode id 0, which the
    claim says is reserved and never allocated. -/
theorem alloc_inode_group0_first_id_is_zero :
    (allocate_inode 4096 0 zero_bitmap).fst = some 0 := by decide

/-- C2.  Refuted: during `format` the superblock is written to block 0 exactly
    once, before the root inode is allocated, and it records the provisional
    `home_dir_inode = 0`; no write-back with the root id follows the
    allocation.  (On the fresh disk the buggy allocator also hands the root id
    0, so the stored value matches only by the coincidence of two defects.)
    The root inode itself is initialized as a directory. -/
theorem format_superblock_write_precedes_root_alloc :
    (format 4096).events = [.write_sb (format_sb 4096), .alloc_root 0] ∧
    (format_sb 4096).home_dir_inode = 0 ∧
    (format 4096).outcome = .ok (0, ⟨0, .FS_DIRECTORY, 0, List.replicate 12 0⟩) :=
  ⟨by decide, rfl, rfl⟩

/-- C5.  Refuted: the data-bitmap scan of `allocate_block` starts at bit 0 and
    skips only local bit 0, so on a fresh group 0 it returns local block 1 —
    the inode-bitmap block — which lies far below the first data-usable block
    `3 + ceil(inodes_per_group * sizeof(Inode) / BLOCK_SIZE)` claimed by the
    spec. -/
theorem alloc_block_group0_returns_metadata_block :
    (allocate_block 4096 0 zero_bitmap).fst = some 1 ∧
    1 < spec_first_data_block 4096 :=
  ⟨by decide, by decide⟩

/-- C6 (amended).  `mount` computes the group count with integer (floor)
    division `total_blocks / blocks_per_group` and constructs one group manager
    per group; this agrees with the claimed ceiling exactly when
    `blocks_per_group` divides `total_blocks`. -/
theorem mount_group_count_floor (sb : SuperBlock)
    (hm : sb.magic_number = 0xF5513001) (hbpg : sb.blocks_per_group = 4096) :
    mount sb = .ok (List.range (sb.total_blocks / 4096)) ∧
    ((List.range (sb.total_blocks / 4096)).length = (sb.total_blocks + 4096 - 1) / 4096 ↔
      sb.total_blocks % 4096 = 0) := by
  constructor
  · simp [mount, hm, hbpg]
  · rw [List.length_range]
    omega

theorem mount_group_count_floor_witness :
    mount ⟨0xF5513001, 8192, 8192, 4096, 4096, 0⟩ = .ok (List.range (8192 / 4096)) ∧
    ((List.range (8192 / 4096)).length = (8192 + 4096 - 1) / 4096 ↔ 8192 % 4096 = 0) :=
  mount_group_count_floor ⟨0xF5513001, 8192, 8192, 4096, 4096, 0⟩ rfl rfl

/-- C6 (counterexample).  On a superblock with 4097 total blocks and groups of
    4096, `mount` constructs 1 group manager while the claimed ceiling division
    demands 2. -/
theorem mount_group_count_not_ceiling :
    mount ⟨0xF5513001, 4096, 4097, 4096, 4096, 0⟩ = .ok [0] ∧
    (4097 + 4096 - 1) / 4096 = 2 ∧ [0].length ≠ 2 :=
  ⟨rfl, by norm_num, by norm_num⟩

/-- C7.  Refuted: `format` has no tiny-image branch — on a 512-block device it
    still sets `blocks_per_group = inodes_per_group = 4096`, so the mount inside
    format constructs zero group managers and the subsequent
    `block_group_managers[0].allocate_inode()` is an out-of-bounds access
    instead of a successful root allocation. -/
theorem format_small_disk_keeps_default_geometry :
    (format_sb 512).blocks_per_group = 4096 ∧
    (format_sb 512).inodes_per_group = 4096 ∧
    mount (format_sb 512) = .ok [] ∧
    (format 512).outcome = .error .OutOfRange :=
  ⟨rfl, rfl, rfl, rfl⟩

/-- C10.  In every group, a successful `allocate_block` returns a global block
    id whose local index is at least 1: if the scan finds local bit 0 it
    reserves that bit and rescans, and the rescan can only yield a clear bit,
    which bit 0 no longer is. -/
theorem alloc_block_never_returns_local_zero (bpg g gid : Nat) (bm : Bitmap)
    (h : (allocate_block bpg g bm).fst = some gid) :
    1 ≤ gid % bpg := by
  unfold allocate_block at h
  cases hf : find_first_free_bit bm bpg with
  | none => rw [hf] at h; simp at h
  | some l =>
    rw [hf] at h
    rcases l with _ | l
    · dsimp only at h
      cases hf2 : find_first_free_bit (set_bit bm 0) bpg with
      | none => rw [hf2] at h; simp at h
      | some l2 =>
        rw [hf2] at h
        simp only [Option.some.injEq] at h
        have hl2ne : l2 ≠ 0 := by
          intro h0
          subst h0
          exact find_after_set_zero_ne_zero bm bpg hf2
        have hlt := (find_first_free_bit_spec _ _ _ hf2).2
        have hmod : gid % bpg = l2 := by
          rw [← h, Nat.mul_comm, Nat.mul_add_mod, Nat.mod_eq_of_lt hlt]
        omega
    · simp only [Option.some.injEq] at h
      have hlt := (find_first_free_bit_spec _ _ _ hf).2
      have hmod : gid % bpg = l + 1 := by
        rw [← h, Nat.mul_comm, Nat.mul_add_mod, Nat.mod_eq_of_lt hlt]
      omega

theorem alloc_block_never_returns_local_zero_witness : 1 ≤ 1 % 4096 :=
  alloc_block_never_returns_local_zero 4096 0 1 zero_bitmap (by decide)

/-- A small mounted state used to instantiate the general theorems: one group,
    root inode 0 (a directory whose single block 400 holds the entry "a" for
    inode 1), and inode 1 a 5-byte regular file whose block 401 holds the bytes
    of "Hello". -/
def sample_state : FsState where
  sb := ⟨0xF5513001, 4096, 4096, 4096, 4096, 0⟩
  managers := 1
  inodes := fun x =>
    if x = 0 then ⟨0, .FS_DIRECTORY, 264, [400, 0, 0, 0, 0, 0, 0, 0, 0, 0, 0, 0]⟩
    else if x = 1 then ⟨1, .FS_FILE, 5, [401, 0, 0, 0, 0, 0, 0, 0, 0, 0, 0, 0]⟩
    else ⟨0, .FS_FREE, 0, List.replicate 12 0⟩
  dirBlocks := fun x => if x = 400 then [⟨1, 1, strncpy_buf [97]⟩] else []
  dataBlocks := fun x =>
    if x = 401 then (fun a => [72, 101, 108, 108, 111].getD a 0) else (fun _ => 0)
  inodeBitmaps := fun _ => fun j => if j = 0 then 3 else 0
  blockBitmaps := fun _ => zero_bitmap

theorem get_global_error (st : FsState) (gid : Nat) (e : Err)
    (h : get_global_inode_ptr st gid = .error e) : e = .OutOfRange := by
  unfold get_global_inode_ptr at h
  split at h
  · injection h with h
    exact h.symm
  · simp at h

theorem traverse_go_not_pd :
    ∀ (l : List Name) (st : FsState) (cur : Nat) (e : Err),
      traverse_go st cur l = .error e → e ≠ .PermissionDenied := by
  intro l
  induction l with
  | nil => intro st cur e h; simp [traverse_go] at h
  | cons c rest ih =>
    intro st cur e h
    rw [traverse_go] at h
    cases hg : get_global_inode_ptr st cur with
    | error e2 =>
      rw [hg] at h
      injection h with h
      subst h
      rw [get_global_error st cur e2 hg]
      decide
    | ok ino =>
      rw [hg] at h
      dsimp only at h
      by_cases htype : ino.file_type ≠ .FS_DIRECTORY
      · rw [if_pos htype] at h
        injection h with h
        subst h
        decide
      · rw [if_neg htype] at h
        by_cases hfind : find_inode_in_dir st ino c = 0
        · rw [if_pos hfind] at h
          injection h with h
          subst h
          decide
        · rw [if_neg hfind] at h
          exact ih st _ e h

theorem traverse_not_pd (st : FsState) (toks : List Name) (e : Err)
    (h : traverse_path_till_parent st toks = .error e) : e ≠ .PermissionDenied := by
  unfold traverse_path_till_parent at h
  split at h
  · simp at h
  · exact traverse_go_not_pd _ st _ e h

theorem release_not_pd (st : FsState) (i : Nat) (e : Err)
    (h : (release_file_resources st i).fst = .error e) : e = .OutOfRange := by
  unfold release_file_resources at h
  cases hg : get_global_inode_ptr st i with
  | error e2 =>
    rw [hg] at h
    injection h with h
    subst h
    exact get_global_error st i e2 hg
  | ok ino =>
    rw [hg] at h
    simp at h

theorem delete_scan_not_pd :
    ∀ (idxs : List Nat) (st : FsState) (pid : Nat) (name : Name) (e : Err),
      (delete_entry_scan st pid name idxs).fst = .error e → e ≠ .PermissionDenied := by
  intro idxs
  induction idxs with
  | nil =>
    intro st pid name e h
    rw [delete_entry_scan] at h
    injection h with h
    subst h
    decide
  | cons i rest ih =>
    intro st pid name e h
    rw [delete_entry_scan] at h
    dsimp only at h
    by_cases hbid : (st.inodes pid).direct_blocks.getD i 0 = 0
    · rw [if_pos hbid] at h
      injection h with h
      subst h
      decide
    · rw [if_neg hbid] at h
      cases hfe : find_entry_idx name
          (pad15 (st.dirBlocks ((st.inodes pid).direct_blocks.getD i 0))) with
      | some j =>
        rw [hfe] at h
        dsimp only at h
        intro hpd
        subst hpd
        cases release_not_pd _ _ _ h
      | none =>
        rw [hfe] at h
        exact ih st pid name e h

/-- C4.  Refuted: no execution of `delete_file` can fail with PermissionDenied —
    the source performs no permission check at all (the `Inode` struct has no
    owner or permission fields and the core has no session state), so any
    logged-in user can delete any other user's file. -/
theorem delete_file_never_permission_denied (st : FsState) (toks : List Name) :
    (delete_file st toks).fst ≠ .error .PermissionDenied := by
  cases toks with
  | nil =>
    rw [delete_file]
    intro h
    injection h with h
    cases h
  | cons a l =>
    rw [delete_file]
    cases ht : traverse_path_till_parent st (a :: l) with
    | error e =>
      dsimp only
      intro h
      injection h with h
      exact traverse_not_pd st (a :: l) e ht h
    | ok pid =>
      dsimp only
      cases hg : get_global_inode_ptr st pid with
      | error e =>
        dsimp only
        intro h
        injection h with h
        subst h
        exact Err.noConfusion (get_global_error st pid _ hg)
      | ok parent =>
        dsimp only
        intro h
        exact delete_scan_not_pd (List.range 12) st pid ((a :: l).getLastD []) _ h rfl

theorem delete_file_never_permission_denied_witness :
    (delete_file sample_state [[97]]).fst ≠ .error .PermissionDenied :=
  delete_file_never_permission_denied sample_state [[97]]

/-- C3.  Refuted: `read_file` returns the whole `12 * BLOCK_SIZE` buffer — the
    resize to `inode.file_size` is commented out in the source — so after
    writing the 5-byte "Hello" the read yields a 49152-byte vector, not the
    5 bytes the round-trip claim requires. -/
theorem read_file_returns_untruncated_buffer :
    (read_file sample_state [[97]]).map List.length = .ok (12 * BLOCK_SIZE) ∧
    (sample_state.inodes 1).file_size = 5 ∧ 12 * BLOCK_SIZE ≠ 5 := by
  refine ⟨?_, rfl, by decide⟩
  have hres : resolve_file sample_state [[97]] = .ok (sample_state.inodes 1) := rfl
  rw [read_file, hres]
  simp only [Except.map]
  rw [List.length_ofFn]

/-- C9.  Confirmed: when the final path component already names an entry of the
    (successfully resolved) parent directory, `create_fs_entry` — hence both
    `create_file` and `create_dir` — fails with AlreadyExists before any
    allocation, returning the state entirely unchanged. -/
theorem create_fs_entry_already_exists_no_state_change
    (st : FsState) (toks : List Name) (t : FS_FILE_TYPES) (pid : Nat) (parent : Inode)
    (h1 : toks ≠ [])
    (h2 : traverse_path_till_parent st toks = .ok pid)
    (h3 : get_global_inode_ptr st pid = .ok parent)
    (h4 : find_inode_in_dir st parent (toks.getLastD []) ≠ 0) :
    create_fs_entry st toks t = (.error .AlreadyExists, st) := by
  cases toks with
  | nil => exact absurd rfl h1
  | cons a l =>
    rw [create_fs_entry]
    dsimp only
    rw [h2]
    dsimp only
    rw [h3]
    dsimp only
    rw [if_pos h4]

theorem create_fs_entry_already_exists_no_state_change_witness :
    create_fs_entry sample_state [[97]] .FS_FILE = (.error .AlreadyExists, sample_state) :=
  create_fs_entry_already_exists_no_state_change sample_state [[97]] .FS_FILE 0
    (sample_state.inodes 0) (by decide) rfl rfl (by decide)

/-- C8 (amended).  `add_entry_to_dir` fills the first free slot of the first
    directory block: it links the id, zeroes the name buffer, copies at most
    `min(len(name), 254)` bytes of the name (`strncpy_buf`), sets `name_len` to
    the low 8 bits of `filename.size()` — a `uint8_t` truncation of the full
    length, not the copied length — and adds `sizeof(DirEntry)` to the parent's
    `file_size`. -/
theorem add_entry_sets_namelen_truncated_cast
    (st : FsState) (pid nid b j : Nat) (filename : Name)
    (hb : (st.inodes pid).direct_blocks.getD 0 0 = b) (hbne : b ≠ 0)
    (hj : free_slot_idx (pad15 (st.dirBlocks b)) = some j) :
    (add_entry_to_dir st pid nid filename).fst = .ok () ∧
    (add_entry_to_dir st pid nid filename).snd.dirBlocks b =
      (pad15 (st.dirBlocks b)).set j ⟨nid, filename.length % 256, strncpy_buf filename⟩ ∧
    ((add_entry_to_dir st pid nid filename).snd.inodes pid).file_size =
      ((st.inodes pid).file_size + sizeof_DirEntry) % 2 ^ 64 := by
  have hrange : List.range 12 = 0 :: [1, 2, 3, 4, 5, 6, 7, 8, 9, 10, 11] := rfl
  rw [add_entry_to_dir, hrange, add_entry_go]
  dsimp only
  rw [hb, if_neg hbne, fill_slot, hj]
  dsimp only [set_inode]
  refine ⟨rfl, ?_, ?_⟩
  · rw [if_pos rfl]
  · rw [if_pos rfl]

theorem add_entry_sets_namelen_truncated_cast_witness :
    (add_entry_to_dir sample_state 0 9 [104, 105]).fst = .ok () ∧
    (add_entry_to_dir sample_state 0 9 [104, 105]).snd.dirBlocks 400 =
      (pad15 (sample_state.dirBlocks 400)).set 1
        ⟨9, [104, 105].length % 256, strncpy_buf [104, 105]⟩ ∧
    ((add_entry_to_dir sample_state 0 9 [104, 105]).snd.inodes 0).file_size =
      ((sample_state.inodes 0).file_size + sizeof_DirEntry) % 2 ^ 64 :=
  add_entry_sets_namelen_truncated_cast sample_state 0 9 400 1 [104, 105]
    rfl (by decide) (by decide)

set_option maxRecDepth 8000 in
/-- C8 (counterexample).  For a 255-byte name the entry written by
    `add_entry_to_dir` has `name_len = 255`, while the copied length — and the
    bound the claim asserts for `name_len` — is `min(255, 254) = 254`. -/
theorem add_entry_namelen_255_exceeds_254 :
    (((add_entry_to_dir sample_state 0 9 (List.replicate 255 97)).snd.dirBlocks 400).getD 1
        empty_dirent).name_len = 255 ∧
    min (List.replicate 255 97).length 254 = 254 ∧ (255 : Nat) ≠ 254 :=
  ⟨by decide, by decide, by decide⟩

end FsSim
